import Mathlib

/-!
Verification of `webp-optimize` (`src/main.rs`): a batch tool that walks an
input directory, blake3-hashes every file, converts unique files to webp,
and accumulates byte statistics.

The worker body of `entries.par_iter().for_each(|entry| ...)` is embedded as
a step function over an explicit state (filesystem of artifacts plus the two
mutex-guarded counters).  The external libraries the worker calls (blake3,
the `image` decoder, the `webp` encoder) are modelled as an uninterpreted
`Libs` record of functions; the pipeline logic itself is translated line by
line from the source.

Paths: the code computes `entry.path().parent().unwrap().join("../")
.join(format!("{hash}.webp"))`.  On a symlink-free filesystem the operating
system resolves the trailing `..`, so the artifact lives in the parent of
the file's parent directory.  We model directories as lists of path
components and the resolved artifact location as `f.dir.dropLast`.
-/

namespace WebpOptimize

/-- The `image` crate's `DynamicImage` variants that `main.rs` matches on:
`ImageLuma8`, `ImageLumaA8`, `ImageRgb8`, `ImageRgba8`, plus a catch-all for
the `_` arm.  Pixel buffers are abstract byte lists. -/
inductive DynamicImage : Type where
  | imageLuma8 (data : List Nat)
  | imageLumaA8 (data : List Nat)
  | imageRgb8 (data : List Nat)
  | imageRgba8 (data : List Nat)
  | otherFormat (data : List Nat)
deriving DecidableEq, Repr

/-- The external libraries the worker calls, as uninterpreted functions:
`hashHex` is `blake3::Hasher` update/finalize/to_hex; `decode` is
`ImageReader::open(path).decode()` applied to the file's bytes (`none` when
decoding fails); `toRgb8`/`toRgba8` are the `image` crate conversions used
in the grayscale normalization; `fromImageOk` tells whether
`webp::Encoder::from_image` succeeds on an image; `encodeBytes` is
`encoder.encode(quality)` as a byte list. -/
structure Libs : Type where
  hashHex : List Nat → String
  decode : List Nat → Option DynamicImage
  toRgb8 : List Nat → List Nat
  toRgba8 : List Nat → List Nat
  fromImageOk : DynamicImage → Bool
  encodeBytes : DynamicImage → Nat → List Nat

/-- One entry produced by the `walkdir` traversal.  `dir` is the file's
parent directory as path components; `openOk` models whether
`File::open(path)` succeeds, `readOk` whether `read_to_end` succeeds,
`bytes` the file content, and `imgOpenOk` whether the second open performed
by `ImageReader::open(path)` succeeds. -/
structure InputFile : Type where
  dir : List String
  name : String
  openOk : Bool
  readOk : Bool
  bytes : List Nat
  imgOpenOk : Bool
deriving DecidableEq, Repr

/-- A resolved filesystem path: directory components plus file name. -/
abbrev FsKey : Type := List String × String

/-- The mutable state the worker closure touches: the artifact filesystem
(resolved path to file size in bytes) and the two counters
`total_original_bytes` and `total_webp_bytes`. -/
structure St : Type where
  fs : List (FsKey × Nat)
  orig : Nat
  webp : Nat
deriving DecidableEq, Repr

/-- `path.exists()` / `fs::metadata(path).len()` on the model filesystem. -/
def fsLookup : List (FsKey × Nat) → FsKey → Option Nat
  | [], _ => none
  | (k, v) :: rest, key => if k = key then some v else fsLookup rest key

/-- `File::create(path)` followed by writing `sz` bytes (a create alone is
`fsWrite fs key 0`, the zero-length marker). -/
def fsWrite (fs : List (FsKey × Nat)) (key : FsKey) (sz : Nat) :
    List (FsKey × Nat) :=
  (key, sz) :: fs

/-- What happened to one file in the worker closure.  `openFailed` and
`readFailed` are the two logged-and-skipped early returns; `foundMarker` and
`foundArtifact` are the `webp_path.exists()` branch; `panicked` is an
`.expect` failure in `ImageReader::open(path)` or `.decode()`;
`encoderFailed` is the `Encoder::from_image` error return; `wroteEncoded`
and `wroteMarker` are the two arms of the final size comparison. -/
inductive Outcome : Type where
  | openFailed
  | readFailed
  | foundMarker
  | foundArtifact (sz : Nat)
  | panicked
  | encoderFailed
  | wroteEncoded (len : Nat)
  | wroteMarker
deriving DecidableEq, Repr

/-- The `webp_path.exists()` branch took effect: the artifact already
existed and only statistics were accumulated. -/
def Outcome.isFound : Outcome → Bool
  | Outcome.foundMarker => true
  | Outcome.foundArtifact _ => true
  | _ => false

/-- The grayscale normalization `match` on the decoded image:
`ImageLuma8` is re-wrapped as `ImageRgb8` via `to_rgb8`, `ImageLumaA8` as
`ImageRgba8` via `to_rgba8`, everything else is kept unchanged. -/
def normalizeImage (L : Libs) : DynamicImage → DynamicImage
  | DynamicImage.imageLuma8 g => DynamicImage.imageRgb8 (L.toRgb8 g)
  | DynamicImage.imageLumaA8 ga => DynamicImage.imageRgba8 (L.toRgba8 ga)
  | img => img

/-- The artifact path `entry.path().parent().unwrap().join("../")
.join(format!("{hash}.webp"))` after the OS resolves the `..` component:
the parent of the file's parent directory, file name `<hex-digest>.webp`. -/
def webpKey (L : Libs) (f : InputFile) : FsKey :=
  (f.dir.dropLast, L.hashHex f.bytes ++ ".webp")

/-- One iteration of the `par_iter().for_each` closure, translated from
`src/main.rs`: open and read the file (early return on failure), add the
byte count to `total_original_bytes`, hash, derive `webp_path`; if the path
exists add its size (or, for a zero-length marker, the input's size) to
`total_webp_bytes` and return; otherwise decode (panicking `.expect`s),
normalize grayscale, build the encoder (early return on failure), encode,
and either write the encoded bytes (when strictly smaller than the input)
or create a zero-length marker. -/
def step (L : Libs) (quality : Nat) (f : InputFile) (s : St) : St × Outcome :=
  if ¬ f.openOk then (s, Outcome.openFailed)
  else if ¬ f.readOk then (s, Outcome.readFailed)
  else
    let n := f.bytes.length
    let s1 : St := { s with orig := s.orig + n }
    let key := webpKey L f
    match fsLookup s1.fs key with
    | some sz =>
        if sz = 0 then
          ({ s1 with webp := s1.webp + n }, Outcome.foundMarker)
        else
          ({ s1 with webp := s1.webp + sz }, Outcome.foundArtifact sz)
    | none =>
        if ¬ f.imgOpenOk then (s1, Outcome.panicked)
        else
          match L.decode f.bytes with
          | none => (s1, Outcome.panicked)
          | some img0 =>
              let img := normalizeImage L img0
              if ¬ L.fromImageOk img then (s1, Outcome.encoderFailed)
              else
                let webpBytes := L.encodeBytes img quality
                if webpBytes.length < n then
                  ({ s1 with
                      fs := fsWrite s1.fs key webpBytes.length,
                      webp := s1.webp + webpBytes.length },
                    Outcome.wroteEncoded webpBytes.length)
                else
                  ({ s1 with
                      fs := fsWrite s1.fs key 0,
                      webp := s1.webp + n },
                    Outcome.wroteMarker)

/-- The whole `for_each` over the entry list (sequential model of the
parallel map; the two counters are mutex-guarded sums, so their final
values do not depend on interleaving).  A panic in any worker propagates
out of `par_iter` and aborts the run, modelled by `none`. -/
def runAux (L : Libs) (quality : Nat) :
    List InputFile → St → Option (St × List Outcome)
  | [], s => some (s, [])
  | f :: rest, s =>
      let p := step L quality f s
      if p.2 = Outcome.panicked then none
      else
        match runAux L quality rest p.1 with
        | none => none
        | some (s', outs) => some (s', p.2 :: outs)

/-- A full run starting from the artifact filesystem `fs0` with both
counters at zero, as `main` does. -/
def run (L : Libs) (quality : Nat) (files : List InputFile)
    (fs0 : List (FsKey × Nat)) : Option (St × List Outcome) :=
  runAux L quality files { fs := fs0, orig := 0, webp := 0 }

/-- Lines 39-41: `if !output_dir.exists() { fs::create_dir_all(output_dir) }`
on a model set of existing directories. -/
def ensureDir (dirs : List (List String)) (d : List String) :
    List (List String) :=
  if d ∈ dirs then dirs else d :: dirs

/-- `saved_bytes`: `if total_original_bytes > total_webp_bytes { orig - webp }
else { 0 }`. -/
def savedBytes (origTotal webpTotal : Nat) : Nat :=
  if origTotal > webpTotal then origTotal - webpTotal else 0

/-- IEEE-754 round-to-nearest, ties-to-even, at the fixed scale `2^e`: the
nearest multiple of `2^e` to `x`, the even multiple on a tie. -/
def roundAtExp (x : ℚ) (e : ℤ) : ℚ :=
  let y := x / 2 ^ e
  let n0 : ℤ := ⌊y⌋
  let r := y - (n0 : ℚ)
  let n : ℤ :=
    if r < 1 / 2 then n0
    else if 1 / 2 < r then n0 + 1
    else if n0 % 2 = 0 then n0 else n0 + 1
  (n : ℚ) * 2 ^ e

/-- IEEE-754 binary64 rounding of a positive rational in the normal range:
round-to-nearest-even with a 53-bit significand, i.e. at scale
`2^(⌊log2 x⌋ - 52)`.  Subnormals and overflow are outside the range any
`u64` byte total or percent value reaches and are not modelled. -/
def f64Round (x : ℚ) : ℚ :=
  if x ≤ 0 then 0 else roundAtExp x (Int.log 2 x - 52)

/-- `percent_saved`: `if total_original_bytes > 0 { 100.0 * (saved_bytes
as f64) / (total_original_bytes as f64) } else { 0.0 }`, with binary64
semantics made explicit: each `u64 as f64` cast rounds, and the
multiplication and division are each correctly rounded. -/
def percentSavedF64 (origTotal webpTotal : Nat) : ℚ :=
  if origTotal > 0 then
    f64Round (f64Round (100 * f64Round ((savedBytes origTotal webpTotal : ℚ)))
      / f64Round ((origTotal : ℚ)))
  else 0

/-- Value of one decimal digit character, `none` for a non-digit. -/
def digitVal (c : Char) : Option Nat :=
  if c.isDigit then some (c.toNat - Char.toNat (Char.ofNat 48)) else none

/-- Left-to-right decimal accumulation over the option value's characters,
failing on the first non-digit. -/
def decAccum : Nat → List Char → Option Nat
  | acc, [] => some acc
  | acc, c :: cs =>
      match digitVal c with
      | none => none
      | some d => decAccum (acc * 10 + d) cs

/-- `u8::from_str` as used by argh for the `--quality` option value: a
nonempty all-digit decimal below 256, `none` (a parse error, rejecting the
flag) otherwise. -/
def parseU8 (s : String) : Option Nat :=
  if s.data = [] then none
  else
    match decAccum 0 s.data with
    | none => none
    | some n => if n < 256 then some n else none

/-- The accepted `--quality` value: `#[argh(option, default = "75")]
quality: u8` — the default expression `75` when the flag is absent,
otherwise whatever `u8::from_str` accepts. -/
def qualityOf (arg : Option String) : Option Nat :=
  match arg with
  | none => some 75
  | some s => parseU8 s

/-- Sum of the byte lengths of a file list: the original-total contribution
of a batch in which every file is readable. -/
def sumLen (files : List InputFile) : Nat :=
  (files.map fun f => f.bytes.length).sum

/-- The `total_webp_bytes` contribution of one file that takes the
`webp_path.exists()` branch against filesystem `fs`: the input's own length
for a zero-length marker, otherwise the artifact's size (`0` when the path
is absent; that case never arises where this is used). -/
def foundDelta (L : Libs) (fs : List (FsKey × Nat)) (f : InputFile) : Nat :=
  match fsLookup fs (webpKey L f) with
  | some 0 => f.bytes.length
  | some sz => sz
  | none => 0

/-- Sum of `foundDelta` over a batch: the output-total of a run in which
every file finds its artifact already present. -/
def sumFound (L : Libs) (fs : List (FsKey × Nat)) (files : List InputFile) :
    Nat :=
  (files.map (foundDelta L fs)).sum

/-- `fs'` preserves every binding of `fs` (artifacts are never deleted, and
the code only writes to paths whose existence check failed, so the
filesystem only grows across a run). -/
def FsExtends (fs' fs : List (FsKey × Nat)) : Prop :=
  ∀ k v, fsLookup fs k = some v → fsLookup fs' k = some v

/-- A file on which every fallible call of the worker succeeds and whose
webp encoding is nonempty (every well-formed webp byte stream is): it
opens, reads, re-opens for decoding, decodes, the encoder builds, and the
encoded output has positive length. -/
def AllGood (L : Libs) (quality : Nat) (f : InputFile) : Prop :=
  f.openOk = true ∧ f.readOk = true ∧ f.imgOpenOk = true ∧
    ∃ img0, L.decode f.bytes = some img0 ∧
      L.fromImageOk (normalizeImage L img0) = true ∧
      0 < (L.encodeBytes (normalizeImage L img0) quality).length

/-- Concrete instantiation of the external libraries used to evaluate the
model on closed inputs: a constant digest, a decoder that rejects empty
byte streams, an encoder constructor that rejects one particular image, and
a one-byte encoding. -/
def testLibs : Libs where
  hashHex _ := "h"
  decode b := if b = [] then none else some (DynamicImage.otherFormat b)
  toRgb8 b := b
  toRgba8 b := b
  fromImageOk img := img != DynamicImage.otherFormat [7]
  encodeBytes _ _ := [0]

/-! ### Branch lemmas for `step` -/

theorem step_openFailed (L : Libs) (q : Nat) (f : InputFile) (s : St)
    (h : f.openOk = false) : step L q f s = (s, Outcome.openFailed) := by
  simp [step, h]

theorem step_readFailed (L : Libs) (q : Nat) (f : InputFile) (s : St)
    (ho : f.openOk = true) (h : f.readOk = false) :
    step L q f s = (s, Outcome.readFailed) := by
  simp [step, ho, h]

theorem step_found (L : Libs) (q : Nat) (f : InputFile) (s : St) (sz : Nat)
    (ho : f.openOk = true) (hr : f.readOk = true)
    (hx : fsLookup s.fs (webpKey L f) = some sz) :
    step L q f s =
      ({ s with orig := s.orig + f.bytes.length,
                webp := s.webp + (if sz = 0 then f.bytes.length else sz) },
        if sz = 0 then Outcome.foundMarker else Outcome.foundArtifact sz) := by
  by_cases hz : sz = 0 <;> simp [step, ho, hr, hx, hz]

theorem step_panic_imgOpen (L : Libs) (q : Nat) (f : InputFile) (s : St)
    (ho : f.openOk = true) (hr : f.readOk = true)
    (hx : fsLookup s.fs (webpKey L f) = none) (h : f.imgOpenOk = false) :
    step L q f s =
      ({ s with orig := s.orig + f.bytes.length }, Outcome.panicked) := by
  simp [step, ho, hr, hx, h]

theorem step_panic_decode (L : Libs) (q : Nat) (f : InputFile) (s : St)
    (ho : f.openOk = true) (hr : f.readOk = true)
    (hx : fsLookup s.fs (webpKey L f) = none) (hio : f.imgOpenOk = true)
    (hd : L.decode f.bytes = none) :
    step L q f s =
      ({ s with orig := s.orig + f.bytes.length }, Outcome.panicked) := by
  simp [step, ho, hr, hx, hio, hd]

theorem step_encFail (L : Libs) (q : Nat) (f : InputFile) (s : St)
    (img0 : DynamicImage)
    (ho : f.openOk = true) (hr : f.readOk = true)
    (hx : fsLookup s.fs (webpKey L f) = none) (hio : f.imgOpenOk = true)
    (hd : L.decode f.bytes = some img0)
    (he : L.fromImageOk (normalizeImage L img0) = false) :
    step L q f s =
      ({ s with orig := s.orig + f.bytes.length }, Outcome.encoderFailed) := by
  simp [step, ho, hr, hx, hio, hd, he]

theorem step_writeEncoded (L : Libs) (q : Nat) (f : InputFile) (s : St)
    (img0 : DynamicImage)
    (ho : f.openOk = true) (hr : f.readOk = true)
    (hx : fsLookup s.fs (webpKey L f) = none) (hio : f.imgOpenOk = true)
    (hd : L.decode f.bytes = some img0)
    (he : L.fromImageOk (normalizeImage L img0) = true)
    (hlt : (L.encodeBytes (normalizeImage L img0) q).length < f.bytes.length) :
    step L q f s =
      ({ s with
          fs := fsWrite s.fs (webpKey L f)
            (L.encodeBytes (normalizeImage L img0) q).length,
          orig := s.orig + f.bytes.length,
          webp := s.webp + (L.encodeBytes (normalizeImage L img0) q).length },
        Outcome.wroteEncoded
          (L.encodeBytes (normalizeImage L img0) q).length) := by
  simp [step, ho, hr, hx, hio, hd, he, hlt]

theorem step_writeMarker (L : Libs) (q : Nat) (f : InputFile) (s : St)
    (img0 : DynamicImage)
    (ho : f.openOk = true) (hr : f.readOk = true)
    (hx : fsLookup s.fs (webpKey L f) = none) (hio : f.imgOpenOk = true)
    (hd : L.decode f.bytes = some img0)
    (he : L.fromImageOk (normalizeImage L img0) = true)
    (hge : ¬ (L.encodeBytes (normalizeImage L img0) q).length <
      f.bytes.length) :
    step L q f s =
      ({ s with
          fs := fsWrite s.fs (webpKey L f) 0,
          orig := s.orig + f.bytes.length,
          webp := s.webp + f.bytes.length },
        Outcome.wroteMarker) := by
  simp [step, ho, hr, hx, hio, hd, he, hge]

/-! ### Filesystem lemmas -/

theorem fsLookup_fsWrite_self (fs : List (FsKey × Nat)) (k : FsKey)
    (sz : Nat) : fsLookup (fsWrite fs k sz) k = some sz := by
  simp [fsWrite, fsLookup]

theorem fsExtends_refl (fs : List (FsKey × Nat)) : FsExtends fs fs :=
  fun _ _ h => h

theorem fsExtends_trans (fs₃ fs₂ fs₁ : List (FsKey × Nat))
    (h32 : FsExtends fs₃ fs₂) (h21 : FsExtends fs₂ fs₁) :
    FsExtends fs₃ fs₁ :=
  fun k v h => h32 k v (h21 k v h)

theorem fsExtends_fsWrite (fs : List (FsKey × Nat)) (k : FsKey) (sz : Nat)
    (hx : fsLookup fs k = none) : FsExtends (fsWrite fs k sz) fs := by
  intro k' v h
  by_cases hk : k = k'
  · rw [hk] at hx; rw [hx] at h; cases h
  · simpa [fsWrite, fsLookup, hk] using h

theorem foundDelta_of_lookup (L : Libs) (fs : List (FsKey × Nat))
    (f : InputFile) (sz : Nat) (hx : fsLookup fs (webpKey L f) = some sz) :
    foundDelta L fs f = if sz = 0 then f.bytes.length else sz := by
  by_cases hz : sz = 0 <;> simp [foundDelta, hx, hz]

theorem sumLen_cons (f : InputFile) (rest : List InputFile) :
    sumLen (f :: rest) = f.bytes.length + sumLen rest := by
  simp [sumLen]

theorem sumFound_cons (L : Libs) (fs : List (FsKey × Nat)) (f : InputFile)
    (rest : List InputFile) :
    sumFound L fs (f :: rest) = foundDelta L fs f + sumFound L fs rest := by
  simp [sumFound]

/-- A run in which every file is readable and already has an artifact at
its derived path leaves the filesystem untouched, adds the batch's byte
length to the original total and the `foundDelta` sum to the webp total,
and every outcome is an `exists`-branch outcome. -/
theorem runAux_covered (L : Libs) (q : Nat) (FS : List (FsKey × Nat)) :
    ∀ files : List InputFile,
      (∀ f ∈ files, f.openOk = true ∧ f.readOk = true ∧
        (fsLookup FS (webpKey L f)).isSome = true) →
      ∀ a b : Nat, ∃ outs,
        runAux L q files { fs := FS, orig := a, webp := b } =
          some ({ fs := FS, orig := a + sumLen files,
                  webp := b + sumFound L FS files }, outs) ∧
        ∀ o ∈ outs, o.isFound = true := by
  intro files
  induction files with
  | nil =>
      intro _ a b
      exact ⟨[], by simp [runAux, sumLen, sumFound], by simp⟩
  | cons f rest ih =>
      intro hcov a b
      obtain ⟨ho, hr, hcovf⟩ := hcov f (by simp)
      obtain ⟨sz, hsz⟩ := Option.isSome_iff_exists.mp hcovf
      have hΔ := foundDelta_of_lookup L FS f sz hsz
      have hstep := step_found L q f { fs := FS, orig := a, webp := b } sz ho hr hsz
      obtain ⟨outs, hrun, hfound⟩ :=
        ih (fun g hg => hcov g (by simp [hg])) (a + f.bytes.length)
          (b + foundDelta L FS f)
      by_cases hz : sz = 0
      · refine ⟨Outcome.foundMarker :: outs, ?_, ?_⟩
        · simp only [hz, if_true, eq_self_iff_true] at hstep
          simp only [runAux, hstep]
          rw [hΔ] at hrun
          simp only [hz, if_true, eq_self_iff_true] at hrun
          simp [hrun, sumLen_cons, sumFound_cons, hΔ, hz, Nat.add_assoc]
        · intro o hmem
          rcases List.mem_cons.mp hmem with h | h
          · rw [h]; rfl
          · exact hfound o h
      · refine ⟨Outcome.foundArtifact sz :: outs, ?_, ?_⟩
        · simp only [if_neg hz] at hstep
          simp only [runAux, hstep]
          rw [hΔ] at hrun
          simp only [if_neg hz] at hrun
          simp [hrun, sumLen_cons, sumFound_cons, hΔ, hz, Nat.add_assoc]
        · intro o hmem
          rcases List.mem_cons.mp hmem with h | h
          · rw [h]; rfl
          · exact hfound o h

/-- A run over all-good files never panics, only grows the filesystem, adds
the batch byte length to the original total, and adds a webp total `d` that
any later run over a filesystem extending the final one reproduces as its
`foundDelta` sum — with every file's artifact present in that filesystem. -/
theorem runAux_allGood (L : Libs) (q : Nat) :
    ∀ files : List InputFile, (∀ f ∈ files, AllGood L q f) →
      ∀ s : St, ∃ s' outs d,
        runAux L q files s = some (s', outs) ∧
        FsExtends s'.fs s.fs ∧
        s'.orig = s.orig + sumLen files ∧
        s'.webp = s.webp + d ∧
        ∀ fs2, FsExtends fs2 s'.fs →
          (∀ f ∈ files, (fsLookup fs2 (webpKey L f)).isSome = true) ∧
          sumFound L fs2 files = d := by
  intro files
  induction files with
  | nil =>
      intro _ s
      refine ⟨s, [], 0, by simp [runAux], fsExtends_refl s.fs, by simp [sumLen],
        by simp, ?_⟩
      intro fs2 _
      exact ⟨by simp, by simp [sumFound]⟩
  | cons f rest ih =>
      intro hgood s
      obtain ⟨ho, hr, hio, img0, hd, he, hpos⟩ := hgood f (by simp)
      have hrest : ∀ g ∈ rest, AllGood L q g := fun g hg => hgood g (by simp [hg])
      cases hx : fsLookup s.fs (webpKey L f) with
      | some sz =>
          have hstep := step_found L q f s sz ho hr hx
          obtain ⟨s', outs, d, hrun, hext, horig, hwebp, hcov⟩ :=
            ih hrest { s with orig := s.orig + f.bytes.length,
                              webp := s.webp + (if sz = 0 then f.bytes.length else sz) }
          refine ⟨s', (if sz = 0 then Outcome.foundMarker else Outcome.foundArtifact sz) :: outs,
            (if sz = 0 then f.bytes.length else sz) + d, ?_, ?_, ?_, ?_, ?_⟩
          · simp only [runAux, hstep]
            rw [hrun]
            by_cases hz : sz = 0 <;> simp [hz]
          · exact hext
          · rw [horig]; simp [sumLen_cons]; omega
          · rw [hwebp]; simp; omega
          · intro fs2 hfs2
            obtain ⟨hcovr, hsumr⟩ := hcov fs2 hfs2
            have hkey : fsLookup fs2 (webpKey L f) = some sz :=
              hfs2 _ _ (hext _ _ hx)
            refine ⟨?_, ?_⟩
            · intro g hg
              rcases List.mem_cons.mp hg with h | h
              · rw [h, hkey]; rfl
              · exact hcovr g h
            · rw [sumFound_cons, foundDelta_of_lookup L fs2 f sz hkey, hsumr]
      | none =>
          by_cases hlt :
              (L.encodeBytes (normalizeImage L img0) q).length < f.bytes.length
          · have hstep := step_writeEncoded L q f s img0 ho hr hx hio hd he hlt
            have hwr : FsExtends
                (fsWrite s.fs (webpKey L f)
                  (L.encodeBytes (normalizeImage L img0) q).length) s.fs :=
              fsExtends_fsWrite s.fs (webpKey L f) _ hx
            obtain ⟨s', outs, d, hrun, hext, horig, hwebp, hcov⟩ :=
              ih hrest { s with
                fs := fsWrite s.fs (webpKey L f)
                  (L.encodeBytes (normalizeImage L img0) q).length,
                orig := s.orig + f.bytes.length,
                webp := s.webp + (L.encodeBytes (normalizeImage L img0) q).length }
            refine ⟨s',
              Outcome.wroteEncoded (L.encodeBytes (normalizeImage L img0) q).length :: outs,
              (L.encodeBytes (normalizeImage L img0) q).length + d, ?_, ?_, ?_, ?_, ?_⟩
            · simp only [runAux, hstep]
              rw [hrun]
              simp
            · exact fsExtends_trans _ _ _ hext hwr
            · rw [horig]; simp [sumLen_cons]; omega
            · rw [hwebp]; simp; omega
            · intro fs2 hfs2
              obtain ⟨hcovr, hsumr⟩ := hcov fs2 hfs2
              have hkey : fsLookup fs2 (webpKey L f) =
                  some (L.encodeBytes (normalizeImage L img0) q).length := by
                apply hfs2
                apply hext
                exact fsLookup_fsWrite_self s.fs (webpKey L f) _
              refine ⟨?_, ?_⟩
              · intro g hg
                rcases List.mem_cons.mp hg with h | h
                · rw [h, hkey]; rfl
                · exact hcovr g h
              · rw [sumFound_cons, foundDelta_of_lookup L fs2 f _ hkey, hsumr,
                  if_neg (Nat.pos_iff_ne_zero.mp hpos)]
          · have hstep := step_writeMarker L q f s img0 ho hr hx hio hd he hlt
            have hwr : FsExtends (fsWrite s.fs (webpKey L f) 0) s.fs :=
              fsExtends_fsWrite s.fs (webpKey L f) _ hx
            obtain ⟨s', outs, d, hrun, hext, horig, hwebp, hcov⟩ :=
              ih hrest { s with
                fs := fsWrite s.fs (webpKey L f) 0,
                orig := s.orig + f.bytes.length,
                webp := s.webp + f.bytes.length }
            refine ⟨s', Outcome.wroteMarker :: outs,
              f.bytes.length + d, ?_, ?_, ?_, ?_, ?_⟩
            · simp only [runAux, hstep]
              rw [hrun]
              simp
            · exact fsExtends_trans _ _ _ hext hwr
            · rw [horig]; simp [sumLen_cons]; omega
            · rw [hwebp]; simp; omega
            · intro fs2 hfs2
              obtain ⟨hcovr, hsumr⟩ := hcov fs2 hfs2
              have hkey : fsLookup fs2 (webpKey L f) = some 0 := by
                apply hfs2
                apply hext
                exact fsLookup_fsWrite_self s.fs (webpKey L f) 0
              refine ⟨?_, ?_⟩
              · intro g hg
                rcases List.mem_cons.mp hg with h | h
                · rw [h, hkey]; rfl
                · exact hcovr g h
              · rw [sumFound_cons, foundDelta_of_lookup L fs2 f 0 hkey, hsumr,
                  if_pos rfl]

/-! ### Concrete fixtures for closed evaluations -/

/-- A fully processable file: three bytes under `in/a/`. -/
def okFile : InputFile :=
  { dir := ["in", "a"], name := "ok.png", openOk := true, readOk := true,
    bytes := [1, 2, 3], imgOpenOk := true }

/-- A file whose `File::open` fails. -/
def noOpenFile : InputFile :=
  { dir := ["in"], name := "locked.png", openOk := false, readOk := true,
    bytes := [1], imgOpenOk := true }

/-- A file whose `read_to_end` fails. -/
def noReadFile : InputFile :=
  { dir := ["in"], name := "broken.png", openOk := true, readOk := false,
    bytes := [1], imgOpenOk := true }

/-- A readable file `testLibs.decode` rejects (empty byte stream). -/
def undecodableFile : InputFile :=
  { dir := ["in", "a"], name := "notes.txt", openOk := true, readOk := true,
    bytes := [], imgOpenOk := true }

/-- A readable, decodable file on which `testLibs.fromImageOk` fails. -/
def encFailFile : InputFile :=
  { dir := ["in", "a"], name := "odd.png", openOk := true, readOk := true,
    bytes := [7], imgOpenOk := true }

/-- Bytes `[1, 2]` at depth two: artifact resolves to `in/h.webp`. -/
def dupDeep : InputFile :=
  { dir := ["in", "a"], name := "x.png", openOk := true, readOk := true,
    bytes := [1, 2], imgOpenOk := true }

/-- The same bytes `[1, 2]` at depth one: artifact resolves to `h.webp`
one level above `in/`. -/
def dupShallow : InputFile :=
  { dir := ["in"], name := "y.png", openOk := true, readOk := true,
    bytes := [1, 2], imgOpenOk := true }

/-- Bytes `[1, 2]` under `in/sub/`, used against `--output out`. -/
def subFile : InputFile :=
  { dir := ["in", "sub"], name := "a.png", openOk := true, readOk := true,
    bytes := [1, 2], imgOpenOk := true }

/-- Empty filesystem, zeroed counters. -/
def st0 : St := { fs := [], orig := 0, webp := 0 }

/-- A state whose filesystem already holds a zero-length marker at
`dupDeep`'s derived artifact path. -/
def markerSt : St := { fs := [((["in"], "h.webp"), 0)], orig := 0, webp := 0 }

/-! ### Claims -/

/-- C3: when the derived output path already exists, the input's own length
is added to the output total if the artifact is a zero-length marker and the
artifact's size is added otherwise; the filesystem is untouched and the
outcome is the exists-branch outcome, so no decode, encode or write
happens for that file. -/
theorem existing_artifact_counts_without_rework (L : Libs) (q : Nat)
    (f : InputFile) (s : St) (sz : Nat)
    (ho : f.openOk = true) (hr : f.readOk = true)
    (hx : fsLookup s.fs (webpKey L f) = some sz) :
    (step L q f s).1.fs = s.fs ∧
      (step L q f s).1.webp =
        s.webp + (if sz = 0 then f.bytes.length else sz) ∧
      (step L q f s).2.isFound = true := by
  rw [step_found L q f s sz ho hr hx]
  refine ⟨rfl, rfl, ?_⟩
  by_cases hz : sz = 0 <;> simp [hz, Outcome.isFound]

/-- Witness for C3 at `dupDeep` against a pre-existing zero-length marker. -/
theorem existing_artifact_counts_without_rework_witness :
    (step testLibs 75 dupDeep markerSt).1.fs = markerSt.fs ∧
      (step testLibs 75 dupDeep markerSt).1.webp =
        markerSt.webp + (if 0 = 0 then dupDeep.bytes.length else 0) ∧
      (step testLibs 75 dupDeep markerSt).2.isFound = true :=
  existing_artifact_counts_without_rework testLibs 75 dupDeep markerSt 0
    rfl rfl (by decide)

/-- C4: for a freshly converted file the encoded bytes are written exactly
when the encoded length is strictly below the input's length, in which case
the encoded length is added to the output total; otherwise a zero-length
marker is created at the output path and the input's length is added. -/
theorem fresh_conversion_write_decision (L : Libs) (q : Nat)
    (f : InputFile) (s : St) (img0 : DynamicImage)
    (ho : f.openOk = true) (hr : f.readOk = true)
    (hx : fsLookup s.fs (webpKey L f) = none) (hio : f.imgOpenOk = true)
    (hd : L.decode f.bytes = some img0)
    (he : L.fromImageOk (normalizeImage L img0) = true) :
    if (L.encodeBytes (normalizeImage L img0) q).length < f.bytes.length then
      (step L q f s).1.fs =
          fsWrite s.fs (webpKey L f)
            (L.encodeBytes (normalizeImage L img0) q).length ∧
        (step L q f s).1.webp =
          s.webp + (L.encodeBytes (normalizeImage L img0) q).length
    else
      (step L q f s).1.fs = fsWrite s.fs (webpKey L f) 0 ∧
        (step L q f s).1.webp = s.webp + f.bytes.length := by
  by_cases hlt :
      (L.encodeBytes (normalizeImage L img0) q).length < f.bytes.length
  · rw [if_pos hlt, step_writeEncoded L q f s img0 ho hr hx hio hd he hlt]
    exact ⟨rfl, rfl⟩
  · rw [if_neg hlt, step_writeMarker L q f s img0 ho hr hx hio hd he hlt]
    exact ⟨rfl, rfl⟩

/-- Witness for C4 at `okFile` on an empty filesystem. -/
theorem fresh_conversion_write_decision_witness :
    if (testLibs.encodeBytes
          (normalizeImage testLibs (DynamicImage.otherFormat [1, 2, 3]))
          75).length < okFile.bytes.length then
      (step testLibs 75 okFile st0).1.fs =
          fsWrite st0.fs (webpKey testLibs okFile)
            (testLibs.encodeBytes
              (normalizeImage testLibs (DynamicImage.otherFormat [1, 2, 3]))
              75).length ∧
        (step testLibs 75 okFile st0).1.webp =
          st0.webp + (testLibs.encodeBytes
            (normalizeImage testLibs (DynamicImage.otherFormat [1, 2, 3]))
            75).length
    else
      (step testLibs 75 okFile st0).1.fs =
          fsWrite st0.fs (webpKey testLibs okFile) 0 ∧
        (step testLibs 75 okFile st0).1.webp =
          st0.webp + okFile.bytes.length :=
  fresh_conversion_write_decision testLibs 75 okFile st0
    (DynamicImage.otherFormat [1, 2, 3]) rfl rfl rfl rfl (by decide) (by decide)

/-- `Int.log 2` is characterised by the enclosing binade. -/
theorem int_log_eq {x : ℚ} {e : ℤ} (hx : 0 < x)
    (hlo : (2 : ℚ) ^ e ≤ x) (hhi : x < (2 : ℚ) ^ (e + 1)) :
    Int.log 2 x = e := by
  have hb : (1 : ℕ) < 2 := by norm_num
  have hcast : ((2 : ℕ) : ℚ) = (2 : ℚ) := by norm_num
  have h1 : e ≤ Int.log 2 x := by
    rw [← Int.zpow_le_iff_le_log hb hx, hcast]
    exact hlo
  have h2 : Int.log 2 x < e + 1 := by
    rw [← Int.lt_zpow_iff_log_lt hb hx, hcast]
    exact hhi
  omega

/-- `roundAtExp` evaluated once the floor of the scaled value is known. -/
theorem roundAtExp_of_floor (x : ℚ) (e : ℤ) (n0 : ℤ)
    (h : ⌊x / 2 ^ e⌋ = n0) :
    roundAtExp x e =
      ((if x / 2 ^ e - (n0 : ℚ) < 1 / 2 then n0
        else if 1 / 2 < x / 2 ^ e - (n0 : ℚ) then n0 + 1
        else if n0 % 2 = 0 then n0 else n0 + 1 : ℤ) : ℚ) * 2 ^ e := by
  unfold roundAtExp
  simp only [h]

/-- The `u64` total 26939362531863433 lies in the binade `[2^54, 2^55)`;
its binary64 value rounds down to 26939362531863432. -/
theorem f64Round_input :
    f64Round (26939362531863433 : ℚ) = 26939362531863432 := by
  have hlog : Int.log 2 (26939362531863433 : ℚ) = 54 :=
    int_log_eq (by norm_num) (by norm_num) (by norm_num)
  have hfl : ⌊(26939362531863433 : ℚ) / 2 ^ (2 : ℤ)⌋ = 6734840632965858 := by
    rw [Int.floor_eq_iff]
    constructor <;> norm_num
  unfold f64Round
  rw [if_neg (by norm_num), hlog, show (54 : ℤ) - 52 = 2 by norm_num,
    roundAtExp_of_floor _ _ _ hfl]
  norm_num

/-- `100.0 * 26939362531863432.0` rounds up (fraction 9/16 at scale
`2^9`) to 2693936253186343424 = 100 * 26939362531863432 + 224. -/
theorem f64Round_scaled :
    f64Round (100 * (26939362531863432 : ℚ)) = 2693936253186343424 := by
  have hv : (100 : ℚ) * 26939362531863432 = 2693936253186343200 := by
    norm_num
  rw [hv]
  have hlog : Int.log 2 (2693936253186343200 : ℚ) = 61 :=
    int_log_eq (by norm_num) (by norm_num) (by norm_num)
  have hfl : ⌊(2693936253186343200 : ℚ) / 2 ^ (9 : ℤ)⌋ = 5261594244504576 := by
    rw [Int.floor_eq_iff]
    constructor <;> norm_num
  unfold f64Round
  rw [if_neg (by norm_num), hlog, show (61 : ℤ) - 52 = 9 by norm_num,
    roundAtExp_of_floor _ _ _ hfl]
  norm_num

/-- The final division: the exact quotient is `100 + 224/26939362531863432`,
whose scaled fraction exceeds 1/2, so it rounds up to the binary64 value
one ulp above 100. -/
theorem f64Round_quotient :
    f64Round ((2693936253186343424 : ℚ) / 26939362531863432) =
      7036874417766401 / 70368744177664 := by
  have hlog :
      Int.log 2 ((2693936253186343424 : ℚ) / 26939362531863432) = 6 :=
    int_log_eq (by norm_num) (by norm_num) (by norm_num)
  have hfl : ⌊((2693936253186343424 : ℚ) / 26939362531863432) /
      2 ^ (-46 : ℤ)⌋ = 7036874417766400 := by
    rw [Int.floor_eq_iff]
    constructor <;> norm_num
  unfold f64Round
  rw [if_neg (by norm_num), hlog, show (6 : ℤ) - 52 = -46 by norm_num,
    roundAtExp_of_floor _ _ _ hfl]
  norm_num

/-- C5 (code evaluated at the failing input): at the reachable totals
original = 26939362531863433 and webp = 0, the program's binary64
expression `100.0 * (saved_bytes as f64) / (total_original_bytes as f64)`
evaluates to 7036874417766401/2^46 = 100.0000000000000142…, strictly above
100 — the claimed [0, 100] bound fails on the code's own arithmetic even
though the exact value of the same expression is 100. -/
theorem percent_saved_f64_exceeds_100 :
    percentSavedF64 26939362531863433 0 =
        7036874417766401 / 70368744177664 ∧
      100 < percentSavedF64 26939362531863433 0 := by
  have hsb : ((savedBytes 26939362531863433 0 : Nat) : ℚ) =
      26939362531863433 := by
    norm_num [savedBytes]
  have hc : ((26939362531863433 : Nat) : ℚ) = 26939362531863433 := by
    norm_num
  have heval : percentSavedF64 26939362531863433 0 =
      7036874417766401 / 70368744177664 := by
    unfold percentSavedF64
    rw [if_pos (by norm_num), hsb, hc, f64Round_input, f64Round_scaled,
      f64Round_quotient]
  exact ⟨heval, by rw [heval]; norm_num⟩

/-- C9: when `Encoder::from_image` fails, the worker has already added the
input's byte length to the original total and returns before touching the
output total or the filesystem, inflating the reported savings. -/
theorem encoder_failure_counts_original_only (L : Libs) (q : Nat)
    (f : InputFile) (s : St) (img0 : DynamicImage)
    (ho : f.openOk = true) (hr : f.readOk = true)
    (hx : fsLookup s.fs (webpKey L f) = none) (hio : f.imgOpenOk = true)
    (hd : L.decode f.bytes = some img0)
    (he : L.fromImageOk (normalizeImage L img0) = false) :
    (step L q f s).1.orig = s.orig + f.bytes.length ∧
      (step L q f s).1.webp = s.webp ∧
      (step L q f s).1.fs = s.fs ∧
      (step L q f s).2 = Outcome.encoderFailed := by
  rw [step_encFail L q f s img0 ho hr hx hio hd he]
  exact ⟨rfl, rfl, rfl, rfl⟩

/-- Witness for C9 at `encFailFile`, the image `testLibs`'s encoder
constructor rejects. -/
theorem encoder_failure_counts_original_only_witness :
    (step testLibs 75 encFailFile st0).1.orig =
        st0.orig + encFailFile.bytes.length ∧
      (step testLibs 75 encFailFile st0).1.webp = st0.webp ∧
      (step testLibs 75 encFailFile st0).1.fs = st0.fs ∧
      (step testLibs 75 encFailFile st0).2 = Outcome.encoderFailed :=
  encoder_failure_counts_original_only testLibs 75 encFailFile st0
    (DynamicImage.otherFormat [7]) rfl rfl rfl rfl (by decide) (by decide)

/-- C10: when `File::open` or `read_to_end` fails, the worker returns
before either counter is touched: the whole state, both totals included,
is unchanged. -/
theorem read_failure_leaves_totals_unchanged (L : Libs) (q : Nat)
    (f : InputFile) (s : St)
    (h : f.openOk = false ∨ f.readOk = false) :
    (step L q f s).1 = s ∧
      ((step L q f s).2 = Outcome.openFailed ∨
        (step L q f s).2 = Outcome.readFailed) := by
  rcases h with h | h
  · rw [step_openFailed L q f s h]
    exact ⟨rfl, Or.inl rfl⟩
  · by_cases ho : f.openOk = true
    · rw [step_readFailed L q f s ho h]
      exact ⟨rfl, Or.inr rfl⟩
    · rw [step_openFailed L q f s (by simpa using ho)]
      exact ⟨rfl, Or.inl rfl⟩

/-- Witness for C10 at `noOpenFile`. -/
theorem read_failure_leaves_totals_unchanged_witness :
    (step testLibs 75 noOpenFile st0).1 = st0 ∧
      ((step testLibs 75 noOpenFile st0).2 = Outcome.openFailed ∨
        (step testLibs 75 noOpenFile st0).2 = Outcome.readFailed) :=
  read_failure_leaves_totals_unchanged testLibs 75 noOpenFile st0
    (Or.inl rfl)

/-- C1 counterexample: two files with identical bytes placed at different
directory depths get the same digest but distinct derived output paths, and
a run over both produces two artifacts, not one. -/
theorem identical_bytes_two_artifacts :
    dupDeep.bytes = dupShallow.bytes ∧
      webpKey testLibs dupDeep ≠ webpKey testLibs dupShallow ∧
      (run testLibs 75 [dupDeep, dupShallow] []).map
        (fun p => p.1.fs.length) = some 2 := by
  refine ⟨rfl, by decide, by decide⟩

/-- C1 (amended): identical bytes always give identical digests, but the
derived output path also depends on the file's parent directory; when the
two parents share the same parent the paths coincide, and processing the
second file right after the first finds the artifact, accumulates
statistics only, and writes nothing. -/
theorem identical_bytes_same_parent_one_artifact (L : Libs) (q : Nat)
    (f1 f2 : InputFile) (s : St)
    (hb : f1.bytes = f2.bytes) (hdir : f1.dir.dropLast = f2.dir.dropLast)
    (ho1 : f1.openOk = true) (hr1 : f1.readOk = true)
    (ho2 : f2.openOk = true) (hr2 : f2.readOk = true)
    (hx : fsLookup s.fs (webpKey L f1) = none)
    (hio : f1.imgOpenOk = true)
    (img0 : DynamicImage) (hd : L.decode f1.bytes = some img0)
    (he : L.fromImageOk (normalizeImage L img0) = true) :
    L.hashHex f1.bytes = L.hashHex f2.bytes ∧
      webpKey L f1 = webpKey L f2 ∧
      (step L q f2 (step L q f1 s).1).2.isFound = true ∧
      (step L q f2 (step L q f1 s).1).1.fs = (step L q f1 s).1.fs := by
  have hkey : webpKey L f1 = webpKey L f2 := by
    unfold webpKey
    rw [hb, hdir]
  refine ⟨by rw [hb], hkey, ?_⟩
  by_cases hlt :
      (L.encodeBytes (normalizeImage L img0) q).length < f1.bytes.length
  · rw [step_writeEncoded L q f1 s img0 ho1 hr1 hx hio hd he hlt]
    have hx2 : fsLookup
        (fsWrite s.fs (webpKey L f1)
          (L.encodeBytes (normalizeImage L img0) q).length)
        (webpKey L f2) =
        some (L.encodeBytes (normalizeImage L img0) q).length := by
      rw [← hkey]
      exact fsLookup_fsWrite_self _ _ _
    rw [step_found L q f2 _ _ ho2 hr2 hx2]
    constructor
    · by_cases hm : (L.encodeBytes (normalizeImage L img0) q).length = 0 <;>
        simp [hm, Outcome.isFound]
    · rfl
  · rw [step_writeMarker L q f1 s img0 ho1 hr1 hx hio hd he hlt]
    have hx2 : fsLookup (fsWrite s.fs (webpKey L f1) 0) (webpKey L f2) =
        some 0 := by
      rw [← hkey]
      exact fsLookup_fsWrite_self _ _ _
    rw [step_found L q f2 _ _ ho2 hr2 hx2]
    exact ⟨by simp [Outcome.isFound], rfl⟩

/-- Witness for the amended C1: `dupDeep` followed by a copy of its bytes
in the sibling directory `in/b/`. -/
theorem identical_bytes_same_parent_one_artifact_witness :
    testLibs.hashHex dupDeep.bytes =
        testLibs.hashHex
          { dir := ["in", "b"], name := "z.png", openOk := true,
            readOk := true, bytes := [1, 2],
            imgOpenOk := true : InputFile }.bytes ∧
      webpKey testLibs dupDeep =
        webpKey testLibs
          { dir := ["in", "b"], name := "z.png", openOk := true,
            readOk := true, bytes := [1, 2], imgOpenOk := true } ∧
      (step testLibs 75
          { dir := ["in", "b"], name := "z.png", openOk := true,
            readOk := true, bytes := [1, 2], imgOpenOk := true }
          (step testLibs 75 dupDeep st0).1).2.isFound = true ∧
      (step testLibs 75
          { dir := ["in", "b"], name := "z.png", openOk := true,
            readOk := true, bytes := [1, 2], imgOpenOk := true }
          (step testLibs 75 dupDeep st0).1).1.fs =
        (step testLibs 75 dupDeep st0).1.fs :=
  identical_bytes_same_parent_one_artifact testLibs 75 dupDeep
    { dir := ["in", "b"], name := "z.png", openOk := true, readOk := true,
      bytes := [1, 2], imgOpenOk := true }
    st0 rfl rfl rfl rfl rfl rfl rfl rfl
    (DynamicImage.otherFormat [1, 2]) (by decide) (by decide)

/-- C2 counterexample: with `--output out`, the artifact for a file under
`in/sub/` is written to `in/h.webp`, not into the `out` directory. -/
theorem artifact_outside_output_dir :
    (run testLibs 75 [subFile] []).map (fun p => p.1.fs) =
        some [((["in"], "h.webp"), 1)] ∧
      (["in"] : List String) ≠ ["out"] := by
  exact ⟨by decide, by decide⟩

/-- C2 (amended): the `--output` directory is created if absent, but every
artifact is written as `<hex-digest>.webp` into the parent of the source
file's parent directory; the derived path never involves the output flag. -/
theorem artifact_named_by_digest_at_grandparent (L : Libs) (q : Nat)
    (f : InputFile) (s : St) (outDir : List String)
    (dirs : List (List String))
    (ho : f.openOk = true) (hr : f.readOk = true)
    (hx : fsLookup s.fs (webpKey L f) = none) (hio : f.imgOpenOk = true)
    (img0 : DynamicImage) (hd : L.decode f.bytes = some img0)
    (he : L.fromImageOk (normalizeImage L img0) = true) :
    outDir ∈ ensureDir dirs outDir ∧
      ∃ sz, (step L q f s).1.fs =
        fsWrite s.fs (f.dir.dropLast, L.hashHex f.bytes ++ ".webp") sz := by
  constructor
  · by_cases hmem : outDir ∈ dirs <;> simp [ensureDir, hmem]
  · by_cases hlt :
        (L.encodeBytes (normalizeImage L img0) q).length < f.bytes.length
    · exact ⟨(L.encodeBytes (normalizeImage L img0) q).length,
        by rw [step_writeEncoded L q f s img0 ho hr hx hio hd he hlt]; rfl⟩
    · exact ⟨0,
        by rw [step_writeMarker L q f s img0 ho hr hx hio hd he hlt]; rfl⟩

/-- Witness for the amended C2 at `subFile` with `--output out`. -/
theorem artifact_named_by_digest_at_grandparent_witness :
    (["out"] : List String) ∈ ensureDir [] ["out"] ∧
      ∃ sz, (step testLibs 75 subFile st0).1.fs =
        fsWrite st0.fs
          (subFile.dir.dropLast, testLibs.hashHex subFile.bytes ++ ".webp")
          sz :=
  artifact_named_by_digest_at_grandparent testLibs 75 subFile st0 ["out"] []
    rfl rfl rfl rfl (DynamicImage.otherFormat [1, 2]) (by decide) (by decide)

/-- C6: a file that opens and reads as bytes but fails the image-decode
stage hits a panicking `.expect`, aborting the whole run — the healthy file
after it is never processed, so the failure is neither logged-and-skipped
nor survivable. -/
theorem decode_failure_aborts_run :
    run testLibs 75 [undecodableFile, okFile] [] = none := by
  decide

/-- C7: re-running the tool over the same files against the filesystem a
completed all-good run left behind reproduces exactly the same final state
(both totals included), and every file takes the artifact-exists path, so
no decode, encode or write is repeated. -/
theorem rerun_is_idempotent (L : Libs) (q : Nat) (files : List InputFile)
    (fs0 : List (FsKey × Nat)) (hgood : ∀ f ∈ files, AllGood L q f) :
    ∃ s1 outs1 outs2,
      run L q files fs0 = some (s1, outs1) ∧
      run L q files s1.fs = some (s1, outs2) ∧
      ∀ o ∈ outs2, o.isFound = true := by
  obtain ⟨s1, outs1, d, hrun1, hext, horig, hwebp, hcov⟩ :=
    runAux_allGood L q files hgood { fs := fs0, orig := 0, webp := 0 }
  obtain ⟨hcover, hsum⟩ := hcov s1.fs (fsExtends_refl s1.fs)
  obtain ⟨outs2, hrun2, hfound⟩ :=
    runAux_covered L q s1.fs files
      (fun f hf => ⟨(hgood f hf).1, (hgood f hf).2.1, hcover f hf⟩) 0 0
  refine ⟨s1, outs1, outs2, hrun1, ?_, hfound⟩
  have h1 : 0 + sumLen files = s1.orig := by
    simp at horig
    omega
  have h2 : 0 + sumFound L s1.fs files = s1.webp := by
    simp at hwebp
    omega
  rw [h1, h2] at hrun2
  exact hrun2

/-- Witness for C7: one all-good file over an empty filesystem. -/
theorem rerun_is_idempotent_witness :
    ∃ s1 outs1 outs2,
      run testLibs 75 [okFile] [] = some (s1, outs1) ∧
      run testLibs 75 [okFile] s1.fs = some (s1, outs2) ∧
      ∀ o ∈ outs2, o.isFound = true :=
  rerun_is_idempotent testLibs 75 [okFile] []
    (by
      intro f hf
      rw [List.mem_singleton] at hf
      subst hf
      exact ⟨rfl, rfl, rfl, DynamicImage.otherFormat [1, 2, 3],
        by decide, by decide, by decide⟩)

/-- C8: the `--quality` flag defaults to 75 when absent, but the accepted
values are only bounded by the `u8` type: `--quality 200` parses and is
used unclamped, contradicting the flag's own documented 0-100 range. -/
theorem quality_default_but_unbounded :
    qualityOf none = some 75 ∧ qualityOf (some "200") = some 200 ∧
      ¬ (200 : Nat) ≤ 100 := by
  refine ⟨rfl, by decide, by decide⟩

end WebpOptimize
